import Mathlib

/-!
Verification of the pico-rng90 driver core (src/crc.c, src/rng90.c).

Bytes are modelled as `Nat` values (callers pass values < 256; the C
`uint8_t` truncation is written explicitly as `% 256` wherever the source
relies on it).  The 16-bit CRC accumulator is a `Nat` kept below `2 ^ 16`
by explicit `% 65536` at every assignment that truncates in C.  Buffers
are `List Nat`; an access the C code performs outside the bytes actually
held by the buffer is modelled as `Option.none` (undefined behaviour).
-/

namespace Rng90

/-- Embeds `reflect` from src/crc.c: reverse the bit order of a byte.
The loop runs `bit = 0 .. 7`, moving the current low bit of `data` to
position `7 - bit` of the accumulator, then shifting `data` right.
The `uint8_t data` parameter is modelled by taking `% 256` on entry. -/
def reflect (data : Nat) : Nat :=
  ((List.range 8).foldl
    (fun st bit =>
      let reflection := if st.2 &&& 0x01 ≠ 0 then st.1 ||| (1 <<< (7 - bit)) else st.1
      (reflection, st.2 >>> 1))
    (0, data % 256)).1

/-- Embeds `rng90_crc16` from src/crc.c.  `crc_t` is `uint16_t`, so every
assignment to the remainder truncates with `% 65536`; the inner loop runs
eight times (`bit = 8` down to `1`) ignoring the counter.  The input
buffer and its `uint8_t length` are modelled together as a `List Nat` of
the bytes the C code reads. -/
def rng90_crc16 (data : List Nat) : Nat :=
  data.foldl
    (fun remainder b =>
      let r0 := remainder ^^^ ((reflect b) <<< 8)
      (List.range 8).foldl
        (fun r _ =>
          if r &&& 0x8000 ≠ 0 then ((r <<< 1) ^^^ 0x8005) % 65536
          else (r <<< 1) % 65536)
        r0)
    0x00

/-- Written from the spec's words (claim C1), not from the source: reverse
the bit order within a byte, bit `i` of the input becoming bit `7 - i` of
the result. -/
def reflect_spec (b : Nat) : Nat :=
  (List.range 8).foldl (fun acc i => acc + (b / 2 ^ i % 2) * 2 ^ (7 - i)) 0

/-- Written from the spec's words (claim C1): one division round on the
16-bit remainder — if the most-significant bit is set, shift left one and
XOR with the polynomial `0x8005`, otherwise just shift left one. -/
def crcRound_spec (r : Nat) : Nat :=
  if r.testBit 15 then (2 * r ^^^ 0x8005) % 2 ^ 16 else 2 * r % 2 ^ 16

/-- Written from the spec's words (claim C1): start from remainder 0; for
each input byte, bit-reflect it, XOR it into the high byte of the
remainder, then perform 8 division rounds; no output reflection, no final
XOR. -/
def crc16_spec (data : List Nat) : Nat :=
  data.foldl (fun r b => crcRound_spec^[8] (r ^^^ reflect_spec (b % 256) * 2 ^ 8)) 0

set_option maxRecDepth 4096 in
theorem reflect_eq_spec_lt (b : Nat) (hb : b < 256) : reflect b = reflect_spec b := by
  revert b; decide

theorem reflect_eq_spec (b : Nat) : reflect b = reflect_spec (b % 256) := by
  have h1 : reflect b = reflect (b % 256) := by
    unfold reflect
    rw [Nat.mod_mod_of_dvd b (dvd_refl 256)]
  rw [h1]
  exact reflect_eq_spec_lt (b % 256) (Nat.mod_lt b (by norm_num))

theorem foldl_range_const (f : Nat → Nat) :
    ∀ (n : Nat) (r : Nat), (List.range n).foldl (fun a _ => f a) r = f^[n] r := by
  intro n
  induction n with
  | zero => intro r; rfl
  | succ n ih =>
    intro r
    rw [List.range_succ, List.foldl_append, ih, Function.iterate_succ_apply']
    rfl

theorem crcRound_eq_spec (r : Nat) :
    (if r &&& 0x8000 ≠ 0 then ((r <<< 1) ^^^ 0x8005) % 65536
     else (r <<< 1) % 65536) = crcRound_spec r := by
  unfold crcRound_spec
  have htest : (r &&& 0x8000 ≠ 0) ↔ r.testBit 15 = true := by
    have : (0x8000 : Nat) = 2 ^ 15 := by norm_num
    rw [this, Nat.and_two_pow]
    cases h : r.testBit 15 <;> simp [h]
  have hsh : r <<< 1 = 2 * r := by
    rw [Nat.shiftLeft_eq]; ring
  rw [hsh]
  by_cases h : r.testBit 15 = true
  · rw [if_pos (htest.mpr h), if_pos h]
    norm_num
  · rw [if_neg (fun hc => h (htest.mp hc)), if_neg h]
    norm_num

/-- C1: rng90_crc16 agrees, on every byte sequence, with the reference
checksum written from the spec's words (remainder starts at 0; each byte
is bit-reflected and XORed into the high byte; 8 shift/XOR rounds with
polynomial 0x8005 per byte; no output reflection, no final XOR); in
particular the empty input yields 0. -/
theorem c1_crc16_matches_reference :
    (∀ data : List Nat, rng90_crc16 data = crc16_spec data) ∧ rng90_crc16 [] = 0 := by
  constructor
  · intro data
    unfold rng90_crc16 crc16_spec
    induction data using List.reverseRecOn with
    | nil => rfl
    | append_singleton xs b ih =>
      rw [List.foldl_append, List.foldl_append, ih]
      simp only [List.foldl_cons, List.foldl_nil]
      rw [foldl_range_const (fun r =>
        if r &&& 0x8000 ≠ 0 then ((r <<< 1) ^^^ 0x8005) % 65536
        else (r <<< 1) % 65536)]
      have : ∀ x, (fun r =>
          if r &&& 0x8000 ≠ 0 then ((r <<< 1) ^^^ 0x8005) % 65536
          else (r <<< 1) % 65536) x = crcRound_spec x := fun x => crcRound_eq_spec x
      rw [funext this]
      congr 1
      rw [reflect_eq_spec, Nat.shiftLeft_eq]
  · rfl

/-- Embeds `validate_response` from src/rng90.c.  `uint8_t length =
data[0] - 2` wraps modulo 256, written here as `(d0 + 254) % 256`.  The C
code then reads `data[0] .. data[length - 1]` for the CRC and compares
against `data[length]` and `data[length + 1]`; an access beyond the bytes
the buffer actually holds is undefined behaviour, modelled as `none`. -/
def validate_response (data : List Nat) : Option Bool :=
  match data[0]? with
  | none => none
  | some d0 =>
    let length := (d0 + 254) % 256
    if length + 1 < data.length then
      let crc := rng90_crc16 (data.take length)
      let crc_lsb := crc &&& 0xFF
      let crc_msb := (crc >>> 8) &&& 0xFF
      some (crc_lsb == data.getD length 0 && crc_msb == data.getD (length + 1) 0)
    else
      none

/-- Embeds `set_crc` from src/rng90.c.  The C `if (!data) return;` null
check has no counterpart on lists; an empty list means the `data[0]` read
itself is out of range (`none`).  A write outside the bytes the buffer
holds is likewise `none`; in-range writes use `List.set`. -/
def set_crc (data : List Nat) : Option (List Nat) :=
  match data[0]? with
  | none => none
  | some total_length =>
    if total_length < 2 then some data
    else
      let payload_len := total_length - 2
      if payload_len + 1 < data.length then
        let crc := rng90_crc16 (data.take payload_len)
        some ((data.set payload_len (crc &&& 0xFF)).set (payload_len + 1) ((crc >>> 8) &&& 0xFF))
      else
        none

/-- C2 (amended): for every buffer whose first byte (the declared length)
is at least 3 and which actually holds that many bytes, validating the
buffer after appending its checksum succeeds.  (The claim's bound of 2
fails: with declared length exactly 2 `set_crc` overwrites the length
byte itself, after which `validate_response` wraps `0 - 2` to 254 and
reads far out of range.) -/
theorem c2_validate_after_set_crc (data : List Nat) (L : Nat)
    (h0 : data[0]? = some L) (h3 : 3 ≤ L) (h256 : L < 256)
    (hlen : L ≤ data.length) :
    (set_crc data).bind validate_response = some true := by
  have hd : 0 < data.length := by
    cases data with
    | nil => simp at h0
    | cons a l => simp
  simp only [set_crc, h0]
  rw [if_neg (by omega), if_pos (by omega)]
  set crc := rng90_crc16 (data.take (L - 2)) with hcrc
  rw [Option.some_bind]
  set a := crc &&& 0xFF with ha
  set b := (crc >>> 8) &&& 0xFF with hb
  set out := (data.set (L - 2) a).set (L - 2 + 1) b with hout
  have hout0 : out[0]? = some L := by
    rw [hout, List.getElem?_set_ne (by omega), List.getElem?_set_ne (by omega), h0]
  have houtlen : out.length = data.length := by
    rw [hout]; simp [List.length_set]
  simp only [validate_response, hout0]
  have hwrap : (L + 254) % 256 = L - 2 := by omega
  rw [hwrap, if_pos (by omega)]
  have htake : out.take (L - 2) = data.take (L - 2) := by
    rw [hout, List.take_set_of_lt _ _ (by omega), List.set_take,
      List.set_eq_of_length_le (by simp [List.length_take])]
  have hga : out.getD (L - 2) 0 = a := by
    rw [List.getD_eq_getElem?_getD, hout, List.getElem?_set_ne (by omega),
      List.getElem?_set_self (by omega)]
    rfl
  have hgb : out.getD (L - 2 + 1) 0 = b := by
    rw [List.getD_eq_getElem?_getD, hout,
      List.getElem?_set_self (by simp [List.length_set]; omega)]
    rfl
  rw [htake, ← hcrc, hga, hgb, ← ha, ← hb]
  simp

/-- C2 witness: a concrete frame with declared length 3. -/
theorem c2_validate_after_set_crc_witness :
    (set_crc [3, 0, 0]).bind validate_response = some true :=
  c2_validate_after_set_crc [3, 0, 0] 3 (by decide) (by decide) (by decide) (by decide)

/-- C2 counterexample: with declared length exactly 2 — allowed by the
claim — `set_crc` stores the checksum at offsets 0 and 1, clobbering the
length byte, and the subsequent validation wraps `0 - 2` to 254 and reads
outside the two-byte buffer (modelled as `none`), so the round trip does
not return `true`. -/
theorem c2_counterexample :
    (set_crc [2, 0]).bind validate_response = none ∧
      (set_crc [2, 0]).bind validate_response ≠ some true := by
  constructor <;> decide

/-- C5: on a buffer whose declared length byte is below 2 the code does
not return `false`; `uint8_t length = data[0] - 2` wraps to 255 (resp.
254), and `rng90_crc16(&data[0], length)` together with the trailing
comparisons read roughly 254 bytes beyond the frame — an out-of-range
access, modelled as `none`.  Evaluations at declared lengths 1 and 0. -/
theorem c5_short_frame_reads_out_of_range :
    validate_response [1, 0] = none ∧ validate_response [0, 7] = none := by
  constructor <;> decide

def RNG_90_I2C_ADDRESS : Nat := 0x40

def WORD_ADDRESS_RESET : Nat := 0x00

def WORD_ADDRESS_SLEEP : Nat := 0x01

def WORD_ADDRESS_COMMAND : Nat := 0x03

def COMMAND_INFO : Nat := 0x30

def COMMAND_SELFTEST : Nat := 0x77

def MAX_RESPONSE_SIZE : Nat := 35

/-- Embeds `struct rng90_context` from src/include/rng90/rng90.h.  The
`i2c_inst_t*` handle is an opaque capability, modelled as a `Nat` tag;
the bus behaviour itself lives in `Transport`. -/
structure rng90_context where
  i2c_inst : Nat
  initialized : Bool
  sleeping : Bool
  rfu : Nat
  device_id : Nat
  silicon_id : Nat
  silicon_rev : Nat
  test_complete : Bool
  logging : Bool
deriving DecidableEq, Repr

/-- The injected bus transport (`i2c_write_blocking` / `i2c_read_blocking`).
`write` returns `true` iff the C call returns a non-negative count.
`read` returns `none` iff the C call returns a negative count, otherwise
the bytes the transport deposited; the final `Bool` is the hold-bus
(`nostop`) flag. -/
structure Transport (σ : Type) where
  write : σ → Nat → List Nat → σ × Bool
  read : σ → Nat → Nat → Bool → σ × Option (List Nat)

/-- Observable actions of the driver: bus writes, bus reads (requested
byte count), `sleep_ms` delays, and `printf`/`log_message` output. -/
inductive Event where
  | write (bytes : List Nat)
  | read (n : Nat)
  | delay (ms : Nat)
  | log (msg : String)
deriving DecidableEq, Repr

/-- Embeds `rng90_set_i2c_instance` from src/rng90.c.  Note the source
resets every field except `logging`. -/
def rng90_set_i2c_instance (ctx : rng90_context) (i2c_inst : Nat) : rng90_context :=
  { ctx with
    i2c_inst := i2c_inst
    initialized := false
    sleeping := true
    rfu := 0x00
    device_id := 0x00
    silicon_id := 0x00
    silicon_rev := 0x00
    test_complete := false }

/-- Embeds `rng90_is_initialized` from src/rng90.c. -/
def rng90_is_initialized (ctx : rng90_context) : Bool :=
  ctx.initialized

/-- Embeds `rng90_is_sleeping` from src/rng90.c. -/
def rng90_is_sleeping (ctx : rng90_context) : Bool :=
  ctx.sleeping

/-- Embeds `rng90_sleep` from src/rng90.c.  The C function returns
`void`: the model's result is only the new context, the new transport
state and the trace of observable events — a write failure shows up
solely as a log event. -/
def rng90_sleep {σ : Type} (T : Transport σ) (ctx : rng90_context) (s : σ) :
    rng90_context × σ × List Event :=
  if !ctx.initialized || ctx.sleeping then (ctx, s, [])
  else
    let command : List Nat := [0x01]
    let w := T.write s RNG_90_I2C_ADDRESS command
    if !w.2 then
      (ctx, w.1, [Event.write command, Event.log "RNG90 I2C sleep error"])
    else
      ({ ctx with sleeping := true }, w.1,
        [Event.write command, Event.log "RNG90 I2C sleep wrote bytes"])

/-- Embeds `load_info` from src/rng90.c.  The response buffer is the
variable-length array `uint8_t response[length]`: a declared length of 0
makes the array itself ill-formed and turns the `length - 1` read count
into a huge `size_t`, modelled as `none` (undefined behaviour), as is any
out-of-range access inside `validate_response`.  Bytes arriving from the
transport are stored through `uint8_t`, hence the `% 256`.  The result
flag is the C return value. -/
def load_info {σ : Type} (T : Transport σ) (ctx : rng90_context) (s : σ) :
    Option (rng90_context × σ × List Event × Bool) :=
  match set_crc [0x07, COMMAND_INFO, 0x00, 0x00, 0x00, 0x00, 0x00] with
  | none => none
  | some frame =>
    let info_command := WORD_ADDRESS_COMMAND :: frame
    let ev0 := [Event.log "RNG90 Info Command"]
    let w := T.write s RNG_90_I2C_ADDRESS info_command
    if !w.2 then
      some (ctx, w.1, ev0 ++ [Event.write info_command,
        Event.log "RNG90 I2C info command write error"], false)
    else
      let ev1 := ev0 ++ [Event.write info_command,
        Event.log "RNG90 I2C info command wrote bytes",
        Event.log "RNG90 I2C info command sleeping 1 ms", Event.delay 1,
        Event.log "RNG90 I2C info command wait complete"]
      let r1 := T.read w.1 RNG_90_I2C_ADDRESS 1 true
      match r1.2 with
      | none => some (ctx, r1.1, ev1 ++ [Event.read 1,
          Event.log "RNG90 I2C info command read error"], false)
      | some lb =>
        let length := lb.headD 0 % 256
        if length = 0 then none
        else
          let r2 := T.read r1.1 RNG_90_I2C_ADDRESS (length - 1) false
          match r2.2 with
          | none => some (ctx, r2.1, ev1 ++ [Event.read 1, Event.read (length - 1),
              Event.log "RNG90 I2C info command read error"], false)
          | some rest =>
            let response := length :: rest.map (· % 256)
            let ev2 := ev1 ++ [Event.read 1, Event.read (length - 1),
              Event.log "RNG90 Info Response"]
            match validate_response response with
            | none => none
            | some false => some (ctx, r2.1, ev2 ++
                [Event.log "RNG90 I2C response CRC invalid"], false)
            | some true =>
              if length < 7 then
                some (ctx, r2.1, ev2 ++
                  [Event.log "RNG90 I2C info response too short"], false)
              else
                some ({ ctx with
                    rfu := response.getD 1 0
                    device_id := response.getD 2 0
                    silicon_id := response.getD 3 0
                    silicon_rev := response.getD 4 0 }, r2.1, ev2, true)

/-- Embeds `rng90_init` from src/rng90.c.  The C function returns
`void`; `none` marks an execution that runs into the out-of-range access
inside `validate_response`/`load_info` (undefined behaviour).  The wake
response buffer is `uint8_t response[MAX_RESPONSE_SIZE]`; the second read
is clamped to `MAX_RESPONSE_SIZE - 1` bytes, and `validate_response` sees
the length byte followed by exactly the bytes read. -/
def rng90_init {σ : Type} (T : Transport σ) (ctx : rng90_context) (s : σ) :
    Option (rng90_context × σ × List Event) :=
  if ctx.initialized then some (ctx, s, [])
  else
    let command : List Nat := [WORD_ADDRESS_RESET]
    let w1 := T.write s RNG_90_I2C_ADDRESS command
    let retry :=
      if w1.2 then (w1.1, true, [Event.write command])
      else
        let w2 := T.write w1.1 RNG_90_I2C_ADDRESS command
        (w2.1, w2.2, [Event.write command, Event.delay 2, Event.write command])
    if !retry.2.1 then
      some (ctx, retry.1, retry.2.2 ++ [Event.log "RNG90 I2C wake/init error"])
    else
      let ev2 := retry.2.2 ++ [Event.log "RNG90 I2C wake/init wrote bytes"]
      let r1 := T.read retry.1 RNG_90_I2C_ADDRESS 1 true
      match r1.2 with
      | none => some (ctx, r1.1, ev2 ++ [Event.read 1,
          Event.log "RNG90 I2C wake/init read error"])
      | some first =>
        let b0 := first.headD 0 % 256
        let remaining := if b0 < MAX_RESPONSE_SIZE then b0 else MAX_RESPONSE_SIZE - 1
        let r2 := T.read r1.1 RNG_90_I2C_ADDRESS remaining false
        match r2.2 with
        | none => some (ctx, r2.1, ev2 ++ [Event.read 1, Event.read remaining,
            Event.log "RNG90 I2C wake/init read error"])
        | some rest =>
          let response := b0 :: rest.map (· % 256)
          let ev3 := ev2 ++ [Event.read 1, Event.read remaining,
            Event.log "RNG90 Wake Response"]
          match validate_response response with
          | none => none
          | some false => some (ctx, r2.1, ev3 ++
              [Event.log "RNG90 I2C wake/init response CRC invalid"])
          | some true =>
            match load_info T ctx r2.1 with
            | none => none
            | some (ctx1, s4, ev4, _ok) =>
              some ({ ctx1 with sleeping := false, initialized := true }, s4, ev3 ++ ev4)

/-- Embeds `ensure_awake` from src/rng90.c: the same wake sequence as
`rng90_init` (without the identity query), used by self-test and random;
on a validated wake response it clears `sleeping`, on any failure it
returns `false` leaving the context untouched. -/
def ensure_awake {σ : Type} (T : Transport σ) (ctx : rng90_context) (s : σ) :
    Option (rng90_context × σ × List Event × Bool) :=
  if !ctx.sleeping then some (ctx, s, [], true)
  else
    let command : List Nat := [WORD_ADDRESS_RESET]
    let w1 := T.write s RNG_90_I2C_ADDRESS command
    let retry :=
      if w1.2 then (w1.1, true, [Event.write command])
      else
        let w2 := T.write w1.1 RNG_90_I2C_ADDRESS command
        (w2.1, w2.2, [Event.write command, Event.delay 2, Event.write command])
    if !retry.2.1 then
      some (ctx, retry.1, retry.2.2 ++ [Event.log "RNG90 auto-wake error"], false)
    else
      let r1 := T.read retry.1 RNG_90_I2C_ADDRESS 1 true
      match r1.2 with
      | none => some (ctx, r1.1, retry.2.2 ++ [Event.read 1,
          Event.log "RNG90 auto-wake read error"], false)
      | some first =>
        let b0 := first.headD 0 % 256
        let remaining := if b0 < MAX_RESPONSE_SIZE then b0 else MAX_RESPONSE_SIZE - 1
        let r2 := T.read r1.1 RNG_90_I2C_ADDRESS remaining false
        match r2.2 with
        | none => some (ctx, r2.1, retry.2.2 ++ [Event.read 1, Event.read remaining,
            Event.log "RNG90 auto-wake read error"], false)
        | some rest =>
          let response := b0 :: rest.map (· % 256)
          let ev3 := retry.2.2 ++ [Event.read 1, Event.read remaining,
            Event.log "RNG90 Auto-Wake Response"]
          match validate_response response with
          | none => none
          | some false => some (ctx, r2.1, ev3 ++
              [Event.log "RNG90 auto-wake response CRC invalid"], false)
          | some true => some ({ ctx with sleeping := false }, r2.1, ev3, true)

/-- Embeds `rng90_self_test` from src/rng90.c.  The result is the wire
value of `rng90_selftest_result_t` (the cast `(rng90_selftest_result_t)
response[1]`); `0xFF` is `RNG90_SELFTEST_COMM_ERROR`.  As in `load_info`,
a declared response length of 0 makes the VLA and the `length - 1` read
count undefined (`none`). -/
def rng90_self_test {σ : Type} (T : Transport σ) (ctx : rng90_context) (s : σ)
    (ty : Nat) : Option (rng90_context × σ × List Event × Nat) :=
  if !ctx.initialized then
    some (ctx, s, [Event.log "RNG90 self_test not initialized"], 0xFF)
  else
    match ensure_awake T ctx s with
    | none => none
    | some (ctx1, s1, ev1, awake) =>
      if !awake then some (ctx1, s1, ev1, 0xFF)
      else
        match set_crc [0x07, COMMAND_SELFTEST, ty % 256, 0x00, 0x00, 0x00, 0x00] with
        | none => none
        | some frame =>
          let command := WORD_ADDRESS_COMMAND :: frame
          let ev2 := ev1 ++ [Event.log "RNG90 SelfTest Command"]
          let w := T.write s1 RNG_90_I2C_ADDRESS command
          if !w.2 then
            some (ctx1, w.1, ev2 ++ [Event.write command,
              Event.log "RNG90 self_test write error"], 0xFF)
          else
            let wait_ms : Nat :=
              match ty with
              | 0x00 => 1
              | 0x01 => 35
              | 0x20 => 16
              | 0x21 => 50
              | _ => 50
            let ev3 := ev2 ++ [Event.write command, Event.delay wait_ms]
            let r1 := T.read w.1 RNG_90_I2C_ADDRESS 1 true
            match r1.2 with
            | none => some (ctx1, r1.1, ev3 ++ [Event.read 1,
                Event.log "RNG90 self_test read error"], 0xFF)
            | some lb =>
              let length := lb.headD 0 % 256
              if length = 0 then none
              else
                let r2 := T.read r1.1 RNG_90_I2C_ADDRESS (length - 1) false
                match r2.2 with
                | none => some (ctx1, r2.1, ev3 ++ [Event.read 1,
                    Event.read (length - 1),
                    Event.log "RNG90 self_test read error"], 0xFF)
                | some rest =>
                  let response := length :: rest.map (· % 256)
                  let ev4 := ev3 ++ [Event.read 1, Event.read (length - 1),
                    Event.log "RNG90 SelfTest Response"]
                  match validate_response response with
                  | none => none
                  | some false => some (ctx1, r2.1, ev4 ++
                      [Event.log "RNG90 self_test response CRC invalid"], 0xFF)
                  | some true => some (ctx1, r2.1, ev4, response.getD 1 0)

/-- A context in its reset/default state (everything cleared, chip
assumed sleeping). -/
def ctx0 : rng90_context :=
  { i2c_inst := 0, initialized := false, sleeping := true, rfu := 0,
    device_id := 0, silicon_id := 0, silicon_rev := 0,
    test_complete := false, logging := false }

/-- An initialized, awake context (as left behind by a successful
`rng90_init`). -/
def ctxAwake : rng90_context :=
  { ctx0 with initialized := true, sleeping := false }

/-- A transport whose writes always succeed and whose reads always
deliver the requested number of `0x01` bytes. -/
def Tok : Transport Nat :=
  { write := fun s _ _ => (s + 1, true)
    read := fun s _ n _ => (s + 1, some (List.replicate n 1)) }

/-- A transport on which every write and every read fails. -/
def Tfail : Transport Nat :=
  { write := fun s _ _ => (s, false)
    read := fun s _ _ _ => (s, none) }

/-- C9: rng90_set_i2c_instance stores the handle and resets
initialized, sleeping, the four cached identity bytes and test_complete
to their defaults — but it does NOT reset the logging flag, which keeps
its prior value (amended part). -/
theorem c9_set_i2c_instance_resets (ctx : rng90_context) (inst : Nat) :
    (rng90_set_i2c_instance ctx inst).i2c_inst = inst ∧
    (rng90_set_i2c_instance ctx inst).initialized = false ∧
    (rng90_set_i2c_instance ctx inst).sleeping = true ∧
    (rng90_set_i2c_instance ctx inst).rfu = 0 ∧
    (rng90_set_i2c_instance ctx inst).device_id = 0 ∧
    (rng90_set_i2c_instance ctx inst).silicon_id = 0 ∧
    (rng90_set_i2c_instance ctx inst).silicon_rev = 0 ∧
    (rng90_set_i2c_instance ctx inst).test_complete = false ∧
    (rng90_set_i2c_instance ctx inst).logging = ctx.logging := by
  simp [rng90_set_i2c_instance]

/-- C9 counterexample: starting from a context whose logging flag is
true, rng90_set_i2c_instance leaves it true, refuting the claim that the
logging flag is reset to its default (false) as well. -/
theorem c9_counterexample :
    (rng90_set_i2c_instance { ctx0 with logging := true } 0).logging ≠ false := by
  decide

/-- C7: rng90_sleep is a no-op (no bus write, no state change, no
events) unless the context is initialized and not sleeping; when it does
write, a successful write sets sleeping := true, while a failed write
leaves the context unchanged and surfaces the failure only as a log
event — the C function returns void, so the model's result carries no
success value at all. -/
theorem c7_sleep_behaviour {σ : Type} (T : Transport σ) (ctx : rng90_context) (s : σ) :
    (ctx.initialized = false ∨ ctx.sleeping = true →
      rng90_sleep T ctx s = (ctx, s, [])) ∧
    (∀ s1 : σ, ctx.initialized = true → ctx.sleeping = false →
      T.write s RNG_90_I2C_ADDRESS [0x01] = (s1, true) →
      rng90_sleep T ctx s = ({ ctx with sleeping := true }, s1,
        [Event.write [0x01], Event.log "RNG90 I2C sleep wrote bytes"])) ∧
    (∀ s1 : σ, ctx.initialized = true → ctx.sleeping = false →
      T.write s RNG_90_I2C_ADDRESS [0x01] = (s1, false) →
      rng90_sleep T ctx s = (ctx, s1,
        [Event.write [0x01], Event.log "RNG90 I2C sleep error"])) := by
  refine ⟨fun h => ?_, fun s1 hi hs hw => ?_, fun s1 hi hs hw => ?_⟩
  · rcases h with h | h <;> simp [rng90_sleep, h]
  · simp [rng90_sleep, hi, hs, hw]
  · simp [rng90_sleep, hi, hs, hw]

/-- C7 witness: the three cases at concrete inputs — an uninitialized
context (no-op), an awake context on a succeeding transport, and an
awake context on a failing transport. -/
theorem c7_sleep_behaviour_witness :
    rng90_sleep Tok ctx0 0 = (ctx0, 0, []) ∧
    rng90_sleep Tok ctxAwake 0 = ({ ctxAwake with sleeping := true }, 1,
      [Event.write [0x01], Event.log "RNG90 I2C sleep wrote bytes"]) ∧
    rng90_sleep Tfail ctxAwake 0 = (ctxAwake, 0,
      [Event.write [0x01], Event.log "RNG90 I2C sleep error"]) :=
  ⟨(c7_sleep_behaviour Tok ctx0 0).1 (Or.inl rfl),
   (c7_sleep_behaviour Tok ctxAwake 0).2.1 1 rfl rfl rfl,
   (c7_sleep_behaviour Tfail ctxAwake 0).2.2 0 rfl rfl rfl⟩

/-- C8: calling rng90_init on an already-initialized context returns at
once: no write, read, delay, or log event, the context unchanged in every
field, and the transport state untouched. -/
theorem c8_init_idempotent {σ : Type} (T : Transport σ) (ctx : rng90_context)
    (s : σ) (h : ctx.initialized = true) :
    rng90_init T ctx s = some (ctx, s, []) := by
  simp [rng90_init, h]

/-- C8 witness: a second init on an initialized context, on a live
transport, is a complete no-op. -/
theorem c8_init_idempotent_witness :
    rng90_init Tok ctxAwake 0 = some (ctxAwake, 0, []) :=
  c8_init_idempotent Tok ctxAwake 0 rfl

set_option maxRecDepth 8192 in
theorem load_info_spec {σ : Type} (T : Transport σ) (ctx : rng90_context) (s : σ)
    (ctx1 : rng90_context) (s1 : σ) (ev : List Event) (ok : Bool)
    (h : load_info T ctx s = some (ctx1, s1, ev, ok)) :
    (ok = false → ctx1 = ctx) ∧ ctx1.initialized = ctx.initialized ∧
      ctx1.sleeping = ctx.sleeping ∧ ctx1.test_complete = ctx.test_complete := by
  have hfc : set_crc [0x07, COMMAND_INFO, 0x00, 0x00, 0x00, 0x00, 0x00] =
      some [0x07, 0x30, 0x00, 0x00, 0x00, 0x03, 0x5D] := by decide
  simp only [load_info, hfc] at h
  repeat' split at h
  all_goals (try simp only [Option.some.injEq, Prod.mk.injEq] at h)
  all_goals
    first
    | (obtain ⟨h1, h2, h3, h4⟩ := h
       subst h1
       subst h4
       exact ⟨by simp, rfl, rfl, rfl⟩)
    | simp_all

/-- C6: on an info-command exchange whose response declares length 1
(write succeeds, both reads succeed), `load_info` does not fail cleanly:
`validate_response` wraps `1 - 2` to 255 as `uint8_t` and reads about 255
bytes past the 1-byte response buffer — an out-of-range access, modelled
as `none`.  `Tok`'s reads deliver `0x01` bytes, so the declared response
length here is 1. -/
theorem c6_short_info_response_out_of_range :
    load_info Tok ctx0 0 = none := by
  rfl

/-- C4: if the reset write (directly or after the single retry), both
response reads, and the wake-response checksum validation succeed on an
uninitialized context whose identity fields are at their reset defaults,
then rng90_init runs the identity query (`load_info`), and whatever that
query returns — success or failure — the final context is the query's
context with `sleeping := false` and `initialized := true`; on query
failure the identity fields keep their reset defaults. -/
theorem c4_init_sets_flags {σ : Type} (T : Transport σ) (ctx : rng90_context)
    (s : σ) (s1 s2 s3 : σ) (first rest : List Nat) (ctx1 : rng90_context)
    (s4 : σ) (ev : List Event) (ok : Bool)
    (hni : ctx.initialized = false)
    (hdef : ctx.rfu = 0 ∧ ctx.device_id = 0 ∧ ctx.silicon_id = 0 ∧ ctx.silicon_rev = 0)
    (hw : T.write s RNG_90_I2C_ADDRESS [WORD_ADDRESS_RESET] = (s1, true) ∨
      (∃ sa, T.write s RNG_90_I2C_ADDRESS [WORD_ADDRESS_RESET] = (sa, false) ∧
        T.write sa RNG_90_I2C_ADDRESS [WORD_ADDRESS_RESET] = (s1, true)))
    (hr1 : T.read s1 RNG_90_I2C_ADDRESS 1 true = (s2, some first))
    (hr2 : T.read s2 RNG_90_I2C_ADDRESS
      (if first.headD 0 % 256 < MAX_RESPONSE_SIZE then first.headD 0 % 256
        else MAX_RESPONSE_SIZE - 1) false = (s3, some rest))
    (hv : validate_response (first.headD 0 % 256 :: rest.map (· % 256)) = some true)
    (hload : load_info T ctx s3 = some (ctx1, s4, ev, ok)) :
    (rng90_init T ctx s).map (fun r => (r.1, r.2.1)) =
      some ({ ctx1 with sleeping := false, initialized := true }, s4) ∧
    (ok = false → ctx1.rfu = 0 ∧ ctx1.device_id = 0 ∧ ctx1.silicon_id = 0 ∧
      ctx1.silicon_rev = 0) := by
  constructor
  · simp only [List.headD_eq_head?_getD] at hr2 hv
    rcases hw with hw | ⟨sa, hwa, hwb⟩
    · simp [rng90_init, hni, hw, hr1, hr2, hv, hload]
    · simp [rng90_init, hni, hwa, hwb, hr1, hr2, hv, hload]
  · intro hok
    rw [(load_info_spec T ctx s3 ctx1 s4 ev ok hload).1 hok]
    exact hdef

/-- C4 witness: a scripted chip that answers the reset with a valid
4-byte wake frame and the identity query with a valid 7-byte identity
frame carrying bytes 1, 2, 3, 4. -/
def T4 : Transport Nat :=
  { write := fun s _ _ => (s + 1, true)
    read := fun s _ n _ =>
      (s + 1, some (
        match s with
        | 1 => [4]
        | 2 => [17, 51, 67, 0]
        | 4 => [7]
        | 5 => [1, 2, 3, 4, 243, 40]
        | _ => List.replicate n 0)) }

/-- The identity bytes the scripted chip `T4` reports, cached in a reset
context. -/
def ctxIdLoaded : rng90_context :=
  { ctx0 with rfu := 1, device_id := 2, silicon_id := 3, silicon_rev := 4 }

set_option maxRecDepth 65536 in
theorem c4_init_sets_flags_witness :
    ((rng90_init T4 ctx0 0).map (fun r => (r.1, r.2.1)) =
      some ({ ctxIdLoaded with sleeping := false, initialized := true }, 6)) ∧
    (true = false → ctxIdLoaded.rfu = 0 ∧ ctxIdLoaded.device_id = 0 ∧
      ctxIdLoaded.silicon_id = 0 ∧ ctxIdLoaded.silicon_rev = 0) := by
  exact c4_init_sets_flags T4 ctx0 0 1 2 3 [4] [17, 51, 67, 0] ctxIdLoaded 6
    [Event.log "RNG90 Info Command", Event.write [3, 7, 48, 0, 0, 0, 3, 93],
     Event.log "RNG90 I2C info command wrote bytes",
     Event.log "RNG90 I2C info command sleeping 1 ms", Event.delay 1,
     Event.log "RNG90 I2C info command wait complete", Event.read 1,
     Event.read 6, Event.log "RNG90 Info Response"]
    true rfl ⟨rfl, rfl, rfl, rfl⟩ (Or.inl rfl) rfl rfl rfl rfl

set_option maxRecDepth 8192 in
theorem ensure_awake_spec {σ : Type} (T : Transport σ) (ctx : rng90_context)
    (s : σ) (ctx1 : rng90_context) (s1 : σ) (ev : List Event) (ok : Bool)
    (h : ensure_awake T ctx s = some (ctx1, s1, ev, ok)) :
    ctx1.initialized = ctx.initialized ∧ ctx1.test_complete = ctx.test_complete := by
  simp only [ensure_awake] at h
  repeat' split at h
  all_goals (try simp only [Option.some.injEq, Prod.mk.injEq] at h)
  all_goals
    first
    | (obtain ⟨h1, h2, h3, h4⟩ := h
       subst h1
       exact ⟨rfl, rfl⟩)
    | simp_all

theorem rng90_sleep_flags {σ : Type} (T : Transport σ) (ctx : rng90_context) (s : σ) :
    (rng90_sleep T ctx s).1.test_complete = ctx.test_complete ∧
      (rng90_sleep T ctx s).1.initialized = ctx.initialized := by
  simp only [rng90_sleep]
  repeat' split
  all_goals exact ⟨rfl, rfl⟩

set_option maxRecDepth 8192 in
theorem rng90_init_test_complete {σ : Type} (T : Transport σ) (ctx : rng90_context)
    (s : σ) (ctx1 : rng90_context) (s1 : σ) (ev : List Event)
    (h : rng90_init T ctx s = some (ctx1, s1, ev)) :
    ctx1.test_complete = ctx.test_complete := by
  simp only [rng90_init] at h
  repeat' split at h
  all_goals (try simp only [Option.some.injEq, Prod.mk.injEq] at h)
  all_goals (try (obtain ⟨h1, h2, h3⟩ := h; subst h1))
  all_goals (try rfl)
  all_goals
    (try (rename load_info _ _ _ = _ => heq
          exact (load_info_spec T ctx _ _ _ _ _ heq).2.2.2))
  all_goals simp_all

set_option maxRecDepth 8192 in
theorem rng90_self_test_test_complete {σ : Type} (T : Transport σ)
    (ctx : rng90_context) (s : σ) (ty : Nat) (ctx1 : rng90_context) (s1 : σ)
    (ev : List Event) (code : Nat)
    (h : rng90_self_test T ctx s ty = some (ctx1, s1, ev, code)) :
    ctx1.test_complete = ctx.test_complete := by
  simp only [rng90_self_test] at h
  repeat' split at h
  all_goals (try simp only [Option.some.injEq, Prod.mk.injEq] at h)
  all_goals (try (obtain ⟨h1, h2, h3, h4⟩ := h; subst h1))
  all_goals (try rfl)
  all_goals
    (try (rename ensure_awake _ _ _ = _ => heq
          exact (ensure_awake_spec T ctx s _ _ _ _ heq).2))
  all_goals simp_all

/-- One call into the public mutating API: init, sleep, or a self-test
with an arbitrary subtype byte. -/
inductive Op where
  | init
  | sleepCmd
  | selftest (ty : Nat)

/-- Run one operation, keeping the resulting context and transport state
(`none` when the call runs into undefined behaviour). -/
def runOp {σ : Type} (T : Transport σ) (op : Op) (ctx : rng90_context) (s : σ) :
    Option (rng90_context × σ) :=
  match op with
  | Op.init => (rng90_init T ctx s).map (fun r => (r.1, r.2.1))
  | Op.sleepCmd => some ((rng90_sleep T ctx s).1, (rng90_sleep T ctx s).2.1)
  | Op.selftest ty => (rng90_self_test T ctx s ty).map (fun r => (r.1, r.2.1))

/-- Run a sequence of operations against the same transport. -/
def runOps {σ : Type} (T : Transport σ) :
    List Op → rng90_context → σ → Option (rng90_context × σ)
  | [], ctx, s => some (ctx, s)
  | op :: ops, ctx, s =>
    match runOp T op ctx s with
    | none => none
    | some (ctx1, s1) => runOps T ops ctx1 s1

theorem runOp_test_complete {σ : Type} (T : Transport σ) (op : Op)
    (ctx : rng90_context) (s : σ) (ctx1 : rng90_context) (s1 : σ)
    (h : runOp T op ctx s = some (ctx1, s1)) :
    ctx1.test_complete = ctx.test_complete := by
  cases op with
  | init =>
    simp only [runOp] at h
    cases hR : rng90_init T ctx s with
    | none => rw [hR] at h; simp at h
    | some r =>
      obtain ⟨c2, s2, ev2⟩ := r
      rw [hR] at h
      simp only [Option.map_some', Option.some.injEq, Prod.mk.injEq] at h
      obtain ⟨h1, h2⟩ := h
      subst h1
      exact rng90_init_test_complete T ctx s c2 s2 ev2 hR
  | sleepCmd =>
    simp only [runOp, Option.some.injEq, Prod.mk.injEq] at h
    obtain ⟨h1, h2⟩ := h
    subst h1
    exact (rng90_sleep_flags T ctx s).1
  | selftest ty =>
    simp only [runOp] at h
    cases hR : rng90_self_test T ctx s ty with
    | none => rw [hR] at h; simp at h
    | some r =>
      obtain ⟨c2, s2, ev2, code2⟩ := r
      rw [hR] at h
      simp only [Option.map_some', Option.some.injEq, Prod.mk.injEq] at h
      obtain ⟨h1, h2⟩ := h
      subst h1
      exact rng90_self_test_test_complete T ctx s ty c2 s2 ev2 code2 hR

theorem runOps_test_complete {σ : Type} (T : Transport σ) (ops : List Op) :
    ∀ (ctx : rng90_context) (s : σ) (ctx1 : rng90_context) (s1 : σ),
      ctx.test_complete = false → runOps T ops ctx s = some (ctx1, s1) →
        ctx1.test_complete = false := by
  induction ops with
  | nil =>
    intro ctx s ctx1 s1 htc h
    simp only [runOps, Option.some.injEq, Prod.mk.injEq] at h
    obtain ⟨h1, h2⟩ := h
    subst h1
    exact htc
  | cons op ops ih =>
    intro ctx s ctx1 s1 htc h
    simp only [runOps] at h
    cases hR : runOp T op ctx s with
    | none => rw [hR] at h; simp at h
    | some r =>
      obtain ⟨c2, s2⟩ := r
      rw [hR] at h
      exact ih c2 s2 ctx1 s1
        ((runOp_test_complete T op ctx s c2 s2 hR).trans htc) h

/-- C10: from any context freshly reset by rng90_set_i2c_instance,
test_complete stays false after every sequence of init, sleep, and
self-test calls that completes (whatever the transport returns): no
operation in the source ever sets it to true. -/
theorem c10_test_complete_invariant {σ : Type} (T : Transport σ) (ops : List Op)
    (ctx : rng90_context) (inst : Nat) (s : σ) (ctx1 : rng90_context) (s1 : σ)
    (h : runOps T ops (rng90_set_i2c_instance ctx inst) s = some (ctx1, s1)) :
    ctx1.test_complete = false :=
  runOps_test_complete T ops (rng90_set_i2c_instance ctx inst) s ctx1 s1 rfl h

/-- C10 witness: a short concrete run — a sleep call (no-op while
uninitialized) followed by a self-test attempt — still leaves
test_complete false. -/
theorem c10_test_complete_invariant_witness :
    (rng90_set_i2c_instance ctx0 5).test_complete = false :=
  c10_test_complete_invariant Tok [Op.sleepCmd] ctx0 5 0
    (rng90_set_i2c_instance ctx0 5) 0 rfl

/-- Modelled from the spec: the chunk sizes of a random fetch of `len`
bytes — the chip returns at most 32 random bytes per exchange, so the
loop issues one fetch per 32-byte (or smaller, final) segment (spec
§4.6).  The first argument is fuel bounding the recursion; each step
consumes at least one byte, so `len` itself is enough fuel. -/
def chunkSizesAux : Nat → Nat → List Nat
  | 0, _ => []
  | fuel + 1, len =>
    if len = 0 then [] else min 32 len :: chunkSizesAux fuel (len - min 32 len)

/-- Modelled from the spec: chunk sizes for one `rng90_random` call. -/
def chunkSizes (len : Nat) : List Nat :=
  chunkSizesAux len len

/-- Modelled from the spec: the chunked fetch loop of `rng90_random`
(§4.6).  `fetch i c` abstracts the i-th command/wait/read/validate
exchange requesting `c` bytes: `none` is any write, read, or checksum
failure, `some bs` a validated response carrying `bs`.  The result is
(success, buffer contents, number of fetch exchanges issued); a failing
chunk aborts the call immediately, issuing no further exchanges. -/
def fetchGo (fetch : Nat → Nat → Option (List Nat)) :
    List Nat → Nat → List Nat → Bool × List Nat × Nat
  | [], idx, acc => (true, acc, idx)
  | c :: rest, idx, acc =>
    match fetch idx c with
    | none => (false, acc, idx + 1)
    | some bs =>
      if bs.length = c then fetchGo fetch rest (idx + 1) (acc ++ bs)
      else (false, acc, idx + 1)

/-- Modelled from the spec: `rng90_random` is declared in
src/include/rng90/rng90.h but its definition is not among the source
files, so the spec's contract (§4.6) is modelled directly: fill the
buffer with exactly `len` bytes, fetched in chunks of at most 32 bytes
per exchange, failing as soon as any chunk's exchange fails. -/
def rng90_random (fetch : Nat → Nat → Option (List Nat)) (len : Nat) :
    Bool × List Nat × Nat :=
  fetchGo fetch (chunkSizes len) 0 []

theorem chunkSizesAux_sum :
    ∀ (fuel len : Nat), len ≤ fuel → (chunkSizesAux fuel len).sum = len := by
  intro fuel
  induction fuel with
  | zero =>
    intro len h
    have : len = 0 := by omega
    subst this
    rfl
  | succ fuel ih =>
    intro len h
    by_cases h0 : len = 0
    · subst h0; rfl
    · simp only [chunkSizesAux, if_neg h0, List.sum_cons]
      rw [ih (len - min 32 len) (by omega)]
      omega

theorem chunkSizesAux_mem :
    ∀ (fuel len c : Nat), c ∈ chunkSizesAux fuel len → 0 < c ∧ c ≤ 32 := by
  intro fuel
  induction fuel with
  | zero => intro len c hc; simp [chunkSizesAux] at hc
  | succ fuel ih =>
    intro len c hc
    by_cases h0 : len = 0
    · subst h0; simp [chunkSizesAux] at hc
    · simp only [chunkSizesAux, if_neg h0, List.mem_cons] at hc
      rcases hc with hc | hc
      · subst hc; omega
      · exact ih _ c hc

theorem fetchGo_success (fetch : Nat → Nat → Option (List Nat)) :
    ∀ (cs : List Nat) (idx : Nat) (acc : List Nat),
      (∀ j, j < cs.length → ∃ bs, fetch (idx + j) (cs.getD j 0) = some bs ∧
        bs.length = cs.getD j 0) →
      ∃ out, fetchGo fetch cs idx acc = (true, acc ++ out, idx + cs.length) ∧
        out.length = cs.sum := by
  intro cs
  induction cs with
  | nil => intro idx acc _; exact ⟨[], by simp [fetchGo], rfl⟩
  | cons c rest ih =>
    intro idx acc h
    obtain ⟨bs, hbs, hlen⟩ := h 0 (by simp)
    have hbs' : fetch idx c = some bs := by simpa using hbs
    have hlen' : bs.length = c := by simpa using hlen
    obtain ⟨out, hgo, hout⟩ := ih (idx + 1) (acc ++ bs) (fun j hj => by
      have hx := h (j + 1) (by simpa using Nat.succ_lt_succ hj)
      have he : idx + (j + 1) = idx + 1 + j := by omega
      simpa [he] using hx)
    refine ⟨bs ++ out, ?_, by simp [hout, hlen']⟩
    simp only [fetchGo, hbs', if_pos hlen', hgo]
    have hlc : idx + (c :: rest).length = idx + 1 + rest.length := by
      simp only [List.length_cons]
      omega
    rw [hlc, ← List.append_assoc]

theorem fetchGo_fail (fetch : Nat → Nat → Option (List Nat)) :
    ∀ (cs : List Nat) (idx : Nat) (acc : List Nat) (k : Nat),
      k < cs.length →
      (∀ j, j < k → ∃ bs, fetch (idx + j) (cs.getD j 0) = some bs ∧
        bs.length = cs.getD j 0) →
      fetch (idx + k) (cs.getD k 0) = none →
      (fetchGo fetch cs idx acc).1 = false ∧
        (fetchGo fetch cs idx acc).2.2 = idx + k + 1 := by
  intro cs
  induction cs with
  | nil => intro idx acc k hk _ _; simp at hk
  | cons c rest ih =>
    intro idx acc k hk hgood hbad
    cases k with
    | zero =>
      have hb : fetch idx c = none := by simpa using hbad
      simp [fetchGo, hb]
    | succ k =>
      obtain ⟨bs, hbs, hlen⟩ := hgood 0 (by omega)
      have hbs' : fetch idx c = some bs := by simpa using hbs
      have hlen' : bs.length = c := by simpa using hlen
      have hrec := ih (idx + 1) (acc ++ bs) k (by simpa using hk)
        (fun j hj => by
          have hx := hgood (j + 1) (by omega)
          have he : idx + (j + 1) = idx + 1 + j := by omega
          simpa [he] using hx)
        (by
          have he : idx + (k + 1) = idx + 1 + k := by omega
          simpa [he] using hbad)
      simp only [fetchGo, hbs', if_pos hlen']
      exact ⟨hrec.1, by rw [hrec.2]; omega⟩

/-- C3 (spec-modelled): when every exchange succeeds delivering the
requested bytes, rng90_random reports success with a buffer of exactly
`len` bytes after issuing one exchange per chunk; every chunk requests
between 1 and 32 bytes; if chunk `k` is the first to fail, the call
reports failure after exactly `k + 1` exchanges (none after the failing
one); and a 40-byte request is chunked as exactly 32 + 8. -/
theorem c3_random_contract :
    (∀ (fetch : Nat → Nat → Option (List Nat)) (len : Nat),
      (∀ i c, ∃ bs, fetch i c = some bs ∧ bs.length = c) →
      (rng90_random fetch len).1 = true ∧
        (rng90_random fetch len).2.1.length = len ∧
        (rng90_random fetch len).2.2 = (chunkSizes len).length) ∧
    (∀ len c, c ∈ chunkSizes len → 0 < c ∧ c ≤ 32) ∧
    (∀ (fetch : Nat → Nat → Option (List Nat)) (len k : Nat),
      k < (chunkSizes len).length →
      (∀ j, j < k → ∃ bs, fetch j ((chunkSizes len).getD j 0) = some bs ∧
        bs.length = (chunkSizes len).getD j 0) →
      fetch k ((chunkSizes len).getD k 0) = none →
      (rng90_random fetch len).1 = false ∧ (rng90_random fetch len).2.2 = k + 1) ∧
    chunkSizes 40 = [32, 8] := by
  refine ⟨?_, ?_, ?_, by decide⟩
  · intro fetch len hgood
    obtain ⟨out, hgo, hout⟩ := fetchGo_success fetch (chunkSizes len) 0 []
      (fun j hj => by simpa using hgood j ((chunkSizes len).getD j 0))
    rw [rng90_random, hgo]
    refine ⟨rfl, ?_, by simp⟩
    simp only []
    rw [List.nil_append]
    rw [hout]
    exact chunkSizesAux_sum len len le_rfl
  · intro len c hc
    exact chunkSizesAux_mem len len c hc
  · intro fetch len k hk hgood hbad
    have := fetchGo_fail fetch (chunkSizes len) 0 [] k hk
      (fun j hj => by simpa using hgood j hj) (by simpa using hbad)
    exact ⟨this.1, by rw [rng90_random]; rw [this.2]; omega⟩

/-- A fetch oracle on which every exchange succeeds with zero bytes of
the requested size. -/
def fetchAll : Nat → Nat → Option (List Nat) :=
  fun _ c => some (List.replicate c 0)

/-- A fetch oracle whose second exchange (index 1) fails — e.g. a
corrupted checksum on the second chunk. -/
def fetchBad1 : Nat → Nat → Option (List Nat) :=
  fun i c => if i = 1 then none else some (List.replicate c 0)

/-- C3 witness: a 40-byte request against an always-succeeding chip
succeeds with 40 bytes in exactly 2 exchanges; with the second chunk's
exchange corrupted, it fails after exactly 2 exchanges. -/
theorem c3_random_contract_witness :
    ((rng90_random fetchAll 40).1 = true ∧
      (rng90_random fetchAll 40).2.1.length = 40 ∧
      (rng90_random fetchAll 40).2.2 = (chunkSizes 40).length) ∧
    ((rng90_random fetchBad1 40).1 = false ∧
      (rng90_random fetchBad1 40).2.2 = 1 + 1) :=
  ⟨c3_random_contract.1 fetchAll 40
      (fun i c => ⟨List.replicate c 0, rfl, by simp⟩),
   c3_random_contract.2.2.1 fetchBad1 40 1 (by decide)
      (fun j hj => by
        have hj0 : j = 0 := by omega
        subst hj0
        exact ⟨List.replicate 32 0, rfl, rfl⟩)
      rfl⟩

end Rng90
